import Mathlib

/-!
Shallow embedding of the Kafka consumer loop from `kafka/consumer.go`
(package `kafka` of `salahfarzin/utils`): `RunConsumerLoopWithSleeper`,
`RunConsumerLoop`, `ConsumeMessage`, the `Sleeper` implementations, and the
goroutine body spawned by `NewConsumer` (`defer reader.Close();
RunConsumerLoop(reader, handler)`).

The loop interacts with its environment only through
`reader.ReadMessage(ctx)`, `handler.Handle(ctx, key, value)`,
`sleeper.Sleep(d)`, `time.Now()` and the logger.  We model one execution as a
fold over a finite list of environment inputs: each `LoopInput` supplies the
result the reader returns for that iteration together with the value
`time.Now()` would yield if the loop read the clock during that iteration.
Each iteration produces the list of observable events it performs (reads,
log records, sleeper invocations, handler invocations) plus the updated loop
state (`retryCount`, `lastErrorTime`).  Exhausting the input list means the
loop is still running; `terminated = true` records that the loop executed
its `return`.

Instants are `Int` nanoseconds since Go's zero time (`time.Time{}`), so the
zero value of `lastErrorTime` is `0`.  Go's `Time.Sub` saturates at the
`int64` bounds, while we use exact `Int` subtraction; the loop only compares
the difference against 30 seconds, and saturation can only replace a value
above 30 s by another value above 30 s, so the comparison's outcome is
unchanged.  Byte slices are `List Nat` with `Option` distinguishing Go's
`nil` slice.  Errors are modelled by the constructors the loop's
`errors.Is` tests can distinguish.
-/

namespace KafkaLoop

/-- A Go byte slice's contents. -/
abbrev Bytes := List Nat

/-- A `context.Context` value.  The loop itself only ever constructs
`context.Background()`; `other` exists so that distinct contexts are
representable and statements about "the same context" are not vacuous. -/
inductive Ctx where
  | background
  | other (id : Nat)
deriving DecidableEq, Repr

/-- The error values the loop's `errors.Is` tests distinguish:
`context.Canceled`, `context.DeadlineExceeded`, `io.EOF`, and anything
else. -/
inductive GoError where
  | canceled
  | deadlineExceeded
  | eof
  | other (msg : String)
deriving DecidableEq, Repr

/-- `errors.Is(err, context.Canceled) || errors.Is(err, context.DeadlineExceeded)`. -/
def isCancellation : GoError → Bool
  | .canceled => true
  | .deadlineExceeded => true
  | _ => false

/-- `errors.Is(err, io.EOF)`. -/
def isEOF : GoError → Bool
  | .eof => true
  | _ => false

/-- The fields of `kafkago.Message` the loop reads: key, value and the
logged metadata (topic, partition, offset, time). -/
structure Message where
  key : Option Bytes
  value : Bytes
  topic : String
  partition : Int
  offset : Int
  time : Int
deriving DecidableEq, Repr

/-- The `Handler` interface: `Handle(ctx, key, value) error`, with `none`
for a nil error. -/
def Handler : Type := Ctx → Option Bytes → Bytes → Option GoError

/-- The `Sleeper` implementations in the source: `DefaultSleeper`
(real `time.Sleep`) and `TestSleeper` (no-op).  Which one is invoked is
recorded in the event trace; what `Sleep` does below that interface is
invisible to the loop. -/
inductive Sleeper where
  | default
  | test
deriving DecidableEq, Repr

/-- Nanoseconds per second: the unit of `time.Duration`. -/
def nsPerSecond : Int := 1000000000

/-- `const maxRetries = 10` in `RunConsumerLoopWithSleeper`. -/
def maxRetries : Int := 10

/-- The observable actions one loop iteration can perform, in order. -/
inductive Event where
  /-- `reader.ReadMessage(ctx)` issued with context `ctx`. -/
  | readCall (ctx : Ctx)
  /-- `log.Info("Kafka consumer: context cancelled, shutting down")`. -/
  | logShutdown
  /-- `log.Debug("Kafka consumer: no new messages, partition at end", retry_count)`. -/
  | logDebugIdle (retryCount : Int)
  /-- `log.Error("Kafka consumer: failed to read message", err, retry_count)`. -/
  | logReadError (retryCount : Int)
  /-- `log.Warn("Kafka consumer: max retry count reached, pausing for 10s")`. -/
  | logMaxRetryWarn
  /-- `log.Info("Kafka consumer: received message", topic, partition, offset, time)`. -/
  | logReceived (topic : String) (partition offset time : Int)
  /-- `sleeper.Sleep(d)` on sleeper `s` with duration `d` nanoseconds. -/
  | sleeperSleep (s : Sleeper) (d : Int)
  /-- `handler.Handle(ctx, key, value)` invoked with these arguments. -/
  | handleCall (ctx : Ctx) (key : Option Bytes) (value : Bytes)
  /-- `log.Error("Kafka consumer: failed to handle message", err)`. -/
  | logHandleError
deriving DecidableEq, Repr

deriving instance DecidableEq for Except

/-- Environment input for one loop iteration: the result
`reader.ReadMessage` returns, and the instant `time.Now()` would return
during this iteration. -/
structure LoopInput where
  read : Except GoError Message
  now : Int
deriving DecidableEq, Repr

/-- Result of one iteration of the loop body: the events performed, whether
the body executed `return`, and the state variables afterwards. -/
structure IterResult where
  events : List Event
  terminated : Bool
  retryCount : Int
  lastErrorTime : Int
deriving DecidableEq, Repr

/-- One iteration of the `for` body of `RunConsumerLoopWithSleeper`,
starting from state `(retryCount, lastErrorTime)`.  `ctx` is the
`context.Background()` created before the loop, hence `Ctx.background` at
every read and handler call. -/
def iterate (sl : Sleeper) (h : Handler) (retryCount lastErrorTime : Int)
    (inp : LoopInput) : IterResult :=
  match inp.read with
  | .error err =>
    if isCancellation err then
      { events := [.readCall .background, .logShutdown],
        terminated := true, retryCount := retryCount,
        lastErrorTime := lastErrorTime }
    else if isEOF err then
      let retryCount := retryCount + 1
      if maxRetries ≤ retryCount then
        let now := inp.now
        if 30 * nsPerSecond < now - lastErrorTime then
          { events := [.readCall .background, .logDebugIdle retryCount,
                       .sleeperSleep sl (10 * nsPerSecond)],
            terminated := false, retryCount := 0, lastErrorTime := now }
        else
          { events := [.readCall .background, .sleeperSleep sl (10 * nsPerSecond)],
            terminated := false, retryCount := 0,
            lastErrorTime := lastErrorTime }
      else
        { events := [.readCall .background], terminated := false,
          retryCount := retryCount, lastErrorTime := lastErrorTime }
    else
      let events := [.readCall .background, .logReadError retryCount]
      let retryCount := retryCount + 1
      if maxRetries ≤ retryCount then
        { events := events ++ [.logMaxRetryWarn, .sleeperSleep sl (10 * nsPerSecond)],
          terminated := false, retryCount := 0,
          lastErrorTime := lastErrorTime }
      else
        { events := events, terminated := false, retryCount := retryCount,
          lastErrorTime := lastErrorTime }
  | .ok msg =>
    let events := [.readCall .background,
                   .logReceived msg.topic msg.partition msg.offset msg.time,
                   .handleCall .background msg.key msg.value]
    match h .background msg.key msg.value with
    | some _ =>
      { events := events ++ [.logHandleError], terminated := false,
        retryCount := 0, lastErrorTime := lastErrorTime }
    | none =>
      { events := events, terminated := false, retryCount := 0,
        lastErrorTime := lastErrorTime }

/-- The record one executed iteration leaves behind: its events and the
loop state when it ends. -/
structure StepRec where
  events : List Event
  retryAfter : Int
  lastErrAfter : Int
deriving DecidableEq, Repr

/-- Outcome of running the loop against a finite list of inputs: one
record per executed iteration, whether the loop returned, and the final
state (meaningful when the input list was exhausted with the loop still
running). -/
structure RunOut where
  recs : List StepRec
  terminated : Bool
  finalRetry : Int
  finalLastErr : Int
deriving DecidableEq, Repr

/-- Run the loop from state `(retryCount, lastErrorTime)` against the
inputs, stopping early when an iteration executes `return`. -/
def runAux (sl : Sleeper) (h : Handler) (retryCount lastErrorTime : Int) :
    List LoopInput → RunOut
  | [] =>
    { recs := [], terminated := false, finalRetry := retryCount,
      finalLastErr := lastErrorTime }
  | inp :: rest =>
    let r := iterate sl h retryCount lastErrorTime inp
    let step : StepRec :=
      { events := r.events, retryAfter := r.retryCount,
        lastErrAfter := r.lastErrorTime }
    if r.terminated then
      { recs := [step], terminated := true, finalRetry := r.retryCount,
        finalLastErr := r.lastErrorTime }
    else
      let out := runAux sl h r.retryCount r.lastErrorTime rest
      { out with recs := step :: out.recs }

/-- `RunConsumerLoopWithSleeper(reader, handler, sleeper)`: state starts at
`retryCount = 0`, `lastErrorTime = time.Time{}` (instant `0`). -/
def runConsumerLoopWithSleeper (reader : List LoopInput) (h : Handler)
    (sl : Sleeper) : RunOut :=
  runAux sl h 0 0 reader

/-- `RunConsumerLoop(reader, handler)`: the loop with `&DefaultSleeper{}`. -/
def runConsumerLoop (reader : List LoopInput) (h : Handler) : RunOut :=
  runConsumerLoopWithSleeper reader h .default

/-- Outcome of the goroutine `NewConsumer` spawns, including how many times
`reader.Close()` was called. -/
structure GoroutineOut where
  run : RunOut
  closeCount : Nat
deriving DecidableEq, Repr

/-- The goroutine body in `NewConsumer`:
`defer reader.Close(); RunConsumerLoop(reader, handler)`.  The deferred
close runs exactly once, when (and only when) the loop returns. -/
def consumerGoroutine (reader : List LoopInput) (h : Handler) : GoroutineOut :=
  let out := runConsumerLoop reader h
  { run := out, closeCount := if out.terminated then 1 else 0 }

/-- `ConsumeMessage(ctx, handler, msgValue)`:
`return handler.Handle(ctx, nil, msgValue)`. -/
def consumeMessage (ctx : Ctx) (h : Handler) (msgValue : Bytes) :
    Option GoError :=
  h ctx none msgValue

/-! ### Trace observations -/

/-- The sleeper invocations in a list of events, in order, as
(sleeper, duration) pairs. -/
def sleepCalls (evs : List Event) : List (Sleeper × Int) :=
  evs.filterMap fun e =>
    match e with
    | .sleeperSleep s d => some (s, d)
    | _ => none

/-- The handler invocations in a list of events, in order. -/
def handleCalls (evs : List Event) : List (Ctx × Option Bytes × Bytes) :=
  evs.filterMap fun e =>
    match e with
    | .handleCall c k v => some (c, k, v)
    | _ => none

/-- The contexts passed to `reader.ReadMessage`, in order. -/
def readCalls (evs : List Event) : List Ctx :=
  evs.filterMap fun e =>
    match e with
    | .readCall c => some c
    | _ => none

/-- How many idle-partition diagnostics (`log.Debug`) a list of events
contains. -/
def idleLogCount (evs : List Event) : Nat :=
  (evs.filter fun e =>
    match e with
    | .logDebugIdle _ => true
    | _ => false).length

/-- All events of a run, in execution order. -/
def allEvents (recs : List StepRec) : List Event :=
  (recs.map StepRec.events).flatten

/-! ### Input classifications -/

/-- The reader result is a cancellation-class error. -/
def isCancelInput (inp : LoopInput) : Bool :=
  match inp.read with
  | .error e => isCancellation e
  | .ok _ => false

/-- The reader result is an error but not a cancellation-class one. -/
def isNonCancelErr : Except GoError Message → Bool
  | .error e => !isCancellation e
  | .ok _ => false

/-- The reader result is a successful read. -/
def isOkRead : Except GoError Message → Bool
  | .ok _ => true
  | .error _ => false

/-- The reader result is a successful read whose message handler `h`
rejects (returns a non-nil error) when invoked as the loop invokes it. -/
def isOkRejected (h : Handler) (inp : LoopInput) : Bool :=
  match inp.read with
  | .ok m => (h .background m.key m.value).isSome
  | .error _ => false

/-- Iteration classified from its input and events: an end-of-stream error
that reached the retry threshold (the loop slept in its EOF branch). -/
def eofThresholdHit (inp : LoopInput) (evs : List Event) : Bool :=
  (match inp.read with
   | .error .eof => true
   | _ => false) && !(sleepCalls evs).isEmpty

/-- Whether iteration `i` of a run was an EOF-threshold hit (false when the
run has no iteration `i`). -/
def hitAt (out : RunOut) (inputs : List LoopInput) (i : Nat) : Bool :=
  match out.recs[i]?, inputs[i]? with
  | some r, some inp => eofThresholdHit inp r.events
  | _, _ => false

/-! ### Concrete collaborators used in witnesses -/

/-- A handler that accepts every message. -/
def handlerOk : Handler := fun _ _ _ => none

/-- A handler that rejects every message. -/
def handlerFail : Handler := fun _ _ _ => some (.other "handler error")

/-- A handler that rejects a message exactly when its key is non-nil:
distinguishes whether a key was forwarded to it. -/
def keyProbe : Handler := fun _ key _ =>
  match key with
  | none => none
  | some _ => some .eof

/-! ### Evaluation lemmas for one iteration -/

theorem iterate_cancel_eq (sl : Sleeper) (h : Handler) (rc lt : Int)
    (inp : LoopInput) (e : GoError) (hr : inp.read = .error e)
    (hc : isCancellation e = true) :
    iterate sl h rc lt inp =
      ⟨[.readCall .background, .logShutdown], true, rc, lt⟩ := by
  simp [iterate, hr, hc]

theorem iterate_eof_eq (sl : Sleeper) (h : Handler) (rc lt : Int)
    (inp : LoopInput) (hr : inp.read = .error .eof) :
    iterate sl h rc lt inp =
      if maxRetries ≤ rc + 1 then
        (if 30 * nsPerSecond < inp.now - lt then
          ⟨[.readCall .background, .logDebugIdle (rc + 1),
            .sleeperSleep sl (10 * nsPerSecond)], false, 0, inp.now⟩
        else
          ⟨[.readCall .background, .sleeperSleep sl (10 * nsPerSecond)],
            false, 0, lt⟩)
      else
        ⟨[.readCall .background], false, rc + 1, lt⟩ := by
  simp [iterate, hr, isCancellation, isEOF]

theorem iterate_other_eq (sl : Sleeper) (h : Handler) (rc lt : Int)
    (inp : LoopInput) (s : String) (hr : inp.read = .error (.other s)) :
    iterate sl h rc lt inp =
      if maxRetries ≤ rc + 1 then
        ⟨[.readCall .background, .logReadError rc, .logMaxRetryWarn,
          .sleeperSleep sl (10 * nsPerSecond)], false, 0, lt⟩
      else
        ⟨[.readCall .background, .logReadError rc], false, rc + 1, lt⟩ := by
  simp [iterate, hr, isCancellation, isEOF]

theorem iterate_ok_accept_eq (sl : Sleeper) (h : Handler) (rc lt : Int)
    (inp : LoopInput) (m : Message) (hr : inp.read = .ok m)
    (hh : h .background m.key m.value = none) :
    iterate sl h rc lt inp =
      ⟨[.readCall .background,
        .logReceived m.topic m.partition m.offset m.time,
        .handleCall .background m.key m.value], false, 0, lt⟩ := by
  simp [iterate, hr, hh]

theorem iterate_ok_reject_eq (sl : Sleeper) (h : Handler) (rc lt : Int)
    (inp : LoopInput) (m : Message) (e : GoError) (hr : inp.read = .ok m)
    (hh : h .background m.key m.value = some e) :
    iterate sl h rc lt inp =
      ⟨[.readCall .background,
        .logReceived m.topic m.partition m.offset m.time,
        .handleCall .background m.key m.value, .logHandleError],
        false, 0, lt⟩ := by
  simp [iterate, hr, hh]

/-! ### Per-iteration facts -/

theorem iterate_terminated_eq (sl : Sleeper) (h : Handler) (rc lt : Int)
    (inp : LoopInput) :
    (iterate sl h rc lt inp).terminated = isCancelInput inp := by
  rcases hr : inp.read with e | m
  · cases e
    · rw [iterate_cancel_eq sl h rc lt inp _ hr rfl]; simp [isCancelInput, hr, isCancellation]
    · rw [iterate_cancel_eq sl h rc lt inp _ hr rfl]; simp [isCancelInput, hr, isCancellation]
    · rw [iterate_eof_eq sl h rc lt inp hr]
      split_ifs <;> simp [isCancelInput, hr, isCancellation]
    · rw [iterate_other_eq sl h rc lt inp _ hr]
      split_ifs <;> simp [isCancelInput, hr, isCancellation]
  · rcases hh : h .background m.key m.value with _ | e
    · rw [iterate_ok_accept_eq sl h rc lt inp m hr hh]; simp [isCancelInput, hr]
    · rw [iterate_ok_reject_eq sl h rc lt inp m e hr hh]; simp [isCancelInput, hr]

theorem iterate_retry_nonneg (sl : Sleeper) (h : Handler) (rc lt : Int)
    (inp : LoopInput) (h0 : 0 ≤ rc) :
    0 ≤ (iterate sl h rc lt inp).retryCount := by
  rcases hr : inp.read with e | m
  · cases e
    · rw [iterate_cancel_eq sl h rc lt inp _ hr rfl]; exact h0
    · rw [iterate_cancel_eq sl h rc lt inp _ hr rfl]; exact h0
    · rw [iterate_eof_eq sl h rc lt inp hr]; split_ifs <;> (simp; try omega)
    · rw [iterate_other_eq sl h rc lt inp _ hr]; split_ifs <;> (simp; try omega)
  · rcases hh : h .background m.key m.value with _ | e
    · rw [iterate_ok_accept_eq sl h rc lt inp m hr hh]
    · rw [iterate_ok_reject_eq sl h rc lt inp m e hr hh]

theorem iterate_readCalls (sl : Sleeper) (h : Handler) (rc lt : Int)
    (inp : LoopInput) :
    readCalls (iterate sl h rc lt inp).events = [Ctx.background] := by
  rcases hr : inp.read with e | m
  · cases e
    · rw [iterate_cancel_eq sl h rc lt inp _ hr rfl]; rfl
    · rw [iterate_cancel_eq sl h rc lt inp _ hr rfl]; rfl
    · rw [iterate_eof_eq sl h rc lt inp hr]; split_ifs <;> rfl
    · rw [iterate_other_eq sl h rc lt inp _ hr]; split_ifs <;> rfl
  · rcases hh : h .background m.key m.value with _ | e
    · rw [iterate_ok_accept_eq sl h rc lt inp m hr hh]; rfl
    · rw [iterate_ok_reject_eq sl h rc lt inp m e hr hh]; rfl

theorem iterate_nonCancelErr (sl : Sleeper) (h : Handler) (rc lt : Int)
    (inp : LoopInput) (he : isNonCancelErr inp.read = true) :
    (iterate sl h rc lt inp).terminated = false ∧
    (iterate sl h rc lt inp).retryCount =
      (if maxRetries ≤ rc + 1 then 0 else rc + 1) ∧
    sleepCalls (iterate sl h rc lt inp).events =
      (if maxRetries ≤ rc + 1 then [(sl, 10 * nsPerSecond)] else []) ∧
    handleCalls (iterate sl h rc lt inp).events = [] := by
  rcases hr : inp.read with e | m
  · cases e
    · simp [isNonCancelErr, hr, isCancellation] at he
    · simp [isNonCancelErr, hr, isCancellation] at he
    · rw [iterate_eof_eq sl h rc lt inp hr]
      split_ifs <;> simp [sleepCalls, handleCalls]
    · rw [iterate_other_eq sl h rc lt inp _ hr]
      split_ifs <;> simp [sleepCalls, handleCalls]
  · simp [isNonCancelErr, hr] at he

theorem iterate_noHit_lastErr (sl : Sleeper) (h : Handler) (rc lt : Int)
    (inp : LoopInput)
    (hno : eofThresholdHit inp (iterate sl h rc lt inp).events = false) :
    (iterate sl h rc lt inp).lastErrorTime = lt := by
  rcases hr : inp.read with e | m
  · cases e
    · rw [iterate_cancel_eq sl h rc lt inp _ hr rfl]
    · rw [iterate_cancel_eq sl h rc lt inp _ hr rfl]
    · rw [iterate_eof_eq sl h rc lt inp hr] at hno ⊢
      split_ifs at hno ⊢ with h1 h2
      · simp [eofThresholdHit, hr, sleepCalls] at hno
      · simp [eofThresholdHit, hr, sleepCalls] at hno
      · rfl
    · rw [iterate_other_eq sl h rc lt inp _ hr]; split_ifs <;> rfl
  · rcases hh : h .background m.key m.value with _ | e
    · rw [iterate_ok_accept_eq sl h rc lt inp m hr hh]
    · rw [iterate_ok_reject_eq sl h rc lt inp m e hr hh]

theorem iterate_hit_idle (sl : Sleeper) (h : Handler) (rc lt : Int)
    (inp : LoopInput)
    (hhit : eofThresholdHit inp (iterate sl h rc lt inp).events = true)
    (hnow : 30 * nsPerSecond < inp.now - lt) :
    idleLogCount (iterate sl h rc lt inp).events = 1 := by
  rcases hr : inp.read with e | m
  · cases e
    · rw [iterate_cancel_eq sl h rc lt inp _ hr rfl] at hhit
      simp [eofThresholdHit, hr] at hhit
    · rw [iterate_cancel_eq sl h rc lt inp _ hr rfl] at hhit
      simp [eofThresholdHit, hr] at hhit
    · rw [iterate_eof_eq sl h rc lt inp hr] at hhit ⊢
      by_cases h1 : maxRetries ≤ rc + 1
      · simp [h1, hnow, idleLogCount]
      · simp [h1, eofThresholdHit, hr, sleepCalls] at hhit
    · rw [iterate_other_eq sl h rc lt inp _ hr] at hhit
      split_ifs at hhit <;> simp [eofThresholdHit, hr] at hhit
  · rcases hh : h .background m.key m.value with _ | e
    · rw [iterate_ok_accept_eq sl h rc lt inp m hr hh] at hhit
      simp [eofThresholdHit, hr] at hhit
    · rw [iterate_ok_reject_eq sl h rc lt inp m e hr hh] at hhit
      simp [eofThresholdHit, hr] at hhit

/-! ### Trace-observation plumbing -/

theorem sleepCalls_append (a b : List Event) :
    sleepCalls (a ++ b) = sleepCalls a ++ sleepCalls b := by
  simp [sleepCalls, List.filterMap_append]

theorem handleCalls_append (a b : List Event) :
    handleCalls (a ++ b) = handleCalls a ++ handleCalls b := by
  simp [handleCalls, List.filterMap_append]

theorem readCalls_append (a b : List Event) :
    readCalls (a ++ b) = readCalls a ++ readCalls b := by
  simp [readCalls, List.filterMap_append]

theorem allEvents_nil : allEvents [] = [] := rfl

theorem allEvents_cons (r : StepRec) (rs : List StepRec) :
    allEvents (r :: rs) = r.events ++ allEvents rs := by
  simp [allEvents]

theorem allEvents_append (a b : List StepRec) :
    allEvents (a ++ b) = allEvents a ++ allEvents b := by
  simp [allEvents]

/-! ### Unfolding lemmas for the loop driver -/

theorem runAux_nil (sl : Sleeper) (h : Handler) (rc lt : Int) :
    runAux sl h rc lt [] = ⟨[], false, rc, lt⟩ := rfl

theorem runAux_cons_term (sl : Sleeper) (h : Handler) (rc lt : Int)
    (inp : LoopInput) (rest : List LoopInput)
    (ht : (iterate sl h rc lt inp).terminated = true) :
    runAux sl h rc lt (inp :: rest) =
      ⟨[⟨(iterate sl h rc lt inp).events, (iterate sl h rc lt inp).retryCount,
         (iterate sl h rc lt inp).lastErrorTime⟩], true,
       (iterate sl h rc lt inp).retryCount,
       (iterate sl h rc lt inp).lastErrorTime⟩ := by
  simp [runAux, ht]

theorem runAux_cons_cont (sl : Sleeper) (h : Handler) (rc lt : Int)
    (inp : LoopInput) (rest : List LoopInput)
    (ht : (iterate sl h rc lt inp).terminated = false) :
    runAux sl h rc lt (inp :: rest) =
      ⟨⟨(iterate sl h rc lt inp).events, (iterate sl h rc lt inp).retryCount,
        (iterate sl h rc lt inp).lastErrorTime⟩ ::
        (runAux sl h (iterate sl h rc lt inp).retryCount
          (iterate sl h rc lt inp).lastErrorTime rest).recs,
       (runAux sl h (iterate sl h rc lt inp).retryCount
          (iterate sl h rc lt inp).lastErrorTime rest).terminated,
       (runAux sl h (iterate sl h rc lt inp).retryCount
          (iterate sl h rc lt inp).lastErrorTime rest).finalRetry,
       (runAux sl h (iterate sl h rc lt inp).retryCount
          (iterate sl h rc lt inp).lastErrorTime rest).finalLastErr⟩ := by
  simp [runAux, ht]

theorem runAux_append (sl : Sleeper) (h : Handler) (xs ys : List LoopInput) :
    ∀ rc lt : Int,
      runAux sl h rc lt (xs ++ ys) =
        if (runAux sl h rc lt xs).terminated then runAux sl h rc lt xs
        else
          ⟨(runAux sl h rc lt xs).recs ++
             (runAux sl h (runAux sl h rc lt xs).finalRetry
               (runAux sl h rc lt xs).finalLastErr ys).recs,
           (runAux sl h (runAux sl h rc lt xs).finalRetry
               (runAux sl h rc lt xs).finalLastErr ys).terminated,
           (runAux sl h (runAux sl h rc lt xs).finalRetry
               (runAux sl h rc lt xs).finalLastErr ys).finalRetry,
           (runAux sl h (runAux sl h rc lt xs).finalRetry
               (runAux sl h rc lt xs).finalLastErr ys).finalLastErr⟩ := by
  induction xs with
  | nil => intro rc lt; simp [runAux_nil]
  | cons x xs ih =>
    intro rc lt
    by_cases ht : (iterate sl h rc lt x).terminated
    · rw [List.cons_append, runAux_cons_term sl h rc lt x (xs ++ ys) ht,
        runAux_cons_term sl h rc lt x xs ht]
      simp
    · rw [List.cons_append,
        runAux_cons_cont sl h rc lt x (xs ++ ys) (by simpa using ht),
        runAux_cons_cont sl h rc lt x xs (by simpa using ht),
        ih]
      by_cases h2 : (runAux sl h (iterate sl h rc lt x).retryCount
          (iterate sl h rc lt x).lastErrorTime xs).terminated
      · simp [h2]
      · simp [h2]

theorem iterate_okRead (sl : Sleeper) (h : Handler) (rc lt : Int)
    (inp : LoopInput) (hok : isOkRead inp.read = true) :
    (iterate sl h rc lt inp).terminated = false ∧
    (iterate sl h rc lt inp).retryCount = 0 ∧
    (iterate sl h rc lt inp).lastErrorTime = lt ∧
    sleepCalls (iterate sl h rc lt inp).events = [] := by
  rcases hr : inp.read with e | m
  · simp [isOkRead, hr] at hok
  · rcases hh : h .background m.key m.value with _ | e
    · rw [iterate_ok_accept_eq sl h rc lt inp m hr hh]
      simp [sleepCalls]
    · rw [iterate_ok_reject_eq sl h rc lt inp m e hr hh]
      simp [sleepCalls]

theorem iterate_rejected (sl : Sleeper) (h : Handler) (rc lt : Int)
    (inp : LoopInput) (hrej : isOkRejected h inp = true) :
    ∃ m, inp.read = .ok m ∧
      iterate sl h rc lt inp =
        ⟨[.readCall .background,
          .logReceived m.topic m.partition m.offset m.time,
          .handleCall .background m.key m.value, .logHandleError],
          false, 0, lt⟩ := by
  rcases hr : inp.read with e | m
  · simp [isOkRejected, hr] at hrej
  · refine ⟨m, rfl, ?_⟩
    rcases hh : h .background m.key m.value with _ | e
    · simp [isOkRejected, hr, hh] at hrej
    · exact iterate_ok_reject_eq sl h rc lt inp m e hr hh

theorem runAux_noCancel (sl : Sleeper) (h : Handler) (inputs : List LoopInput) :
    ∀ rc lt : Int, (∀ inp ∈ inputs, isCancelInput inp = false) →
      (runAux sl h rc lt inputs).terminated = false ∧
      (runAux sl h rc lt inputs).recs.length = inputs.length := by
  induction inputs with
  | nil => intro rc lt _; simp [runAux_nil]
  | cons inp rest ih =>
    intro rc lt hnc
    have ht : (iterate sl h rc lt inp).terminated = false := by
      rw [iterate_terminated_eq]; exact hnc inp (by simp)
    rw [runAux_cons_cont sl h rc lt inp rest ht]
    have hrest := ih (iterate sl h rc lt inp).retryCount
      (iterate sl h rc lt inp).lastErrorTime
      (fun i hi => hnc i (List.mem_cons_of_mem _ hi))
    exact ⟨hrest.1, by simpa using hrest.2⟩

theorem runAux_term_cancel (sl : Sleeper) (h : Handler)
    (inputs : List LoopInput) (rc lt : Int)
    (ht : (runAux sl h rc lt inputs).terminated = true) :
    ∃ inp ∈ inputs, isCancelInput inp = true := by
  by_contra hcon
  push_neg at hcon
  have hall : ∀ inp ∈ inputs, isCancelInput inp = false := by
    intro i hi
    have := hcon i hi
    simpa using this
  rw [(runAux_noCancel sl h inputs rc lt hall).1] at ht
  exact absurd ht (by simp)

theorem runAux_readCalls (sl : Sleeper) (h : Handler)
    (inputs : List LoopInput) :
    ∀ rc lt : Int,
      readCalls (allEvents (runAux sl h rc lt inputs).recs) =
        List.replicate (runAux sl h rc lt inputs).recs.length Ctx.background := by
  induction inputs with
  | nil => intro rc lt; simp [runAux_nil, allEvents_nil, readCalls]
  | cons inp rest ih =>
    intro rc lt
    by_cases ht : (iterate sl h rc lt inp).terminated
    · rw [runAux_cons_term sl h rc lt inp rest ht]
      simp [allEvents_cons, allEvents_nil, iterate_readCalls, List.replicate]
    · rw [runAux_cons_cont sl h rc lt inp rest
        (Bool.not_eq_true _ ▸ ht : (iterate sl h rc lt inp).terminated = false)]
      simp only [List.length_cons, allEvents_cons, readCalls_append,
        iterate_readCalls, ih, List.replicate]
      rfl

theorem runAux_retryFacts (sl : Sleeper) (h : Handler)
    (inputs : List LoopInput) :
    ∀ rc lt : Int, 0 ≤ rc →
      (∀ r ∈ (runAux sl h rc lt inputs).recs, 0 ≤ r.retryAfter) ∧
      (∀ (i : Nat) r inp, (runAux sl h rc lt inputs).recs[i]? = some r →
        inputs[i]? = some inp → isOkRead inp.read = true →
        r.retryAfter = 0) := by
  induction inputs with
  | nil =>
    intro rc lt _
    refine ⟨by simp [runAux_nil], ?_⟩
    intro i r inp hr
    simp [runAux_nil] at hr
  | cons inp0 rest ih =>
    intro rc lt h0
    by_cases ht : (iterate sl h rc lt inp0).terminated
    · rw [runAux_cons_term sl h rc lt inp0 rest ht]
      constructor
      · intro r hr
        simp at hr
        subst hr
        exact iterate_retry_nonneg sl h rc lt inp0 h0
      · intro i r inp hr hinp hok
        cases i with
        | zero =>
          simp at hr hinp
          have hcancel : isCancelInput inp0 = true := by
            rw [← iterate_terminated_eq sl h rc lt inp0]; exact ht
          rw [← hinp] at hok
          rcases hread : inp0.read with e | m
          · simp [isOkRead, hread] at hok
          · simp [isCancelInput, hread] at hcancel
        | succ j => simp at hr
    · have ht' : (iterate sl h rc lt inp0).terminated = false := by
        simpa using ht
      rw [runAux_cons_cont sl h rc lt inp0 rest ht']
      have hnext := ih (iterate sl h rc lt inp0).retryCount
        (iterate sl h rc lt inp0).lastErrorTime
        (iterate_retry_nonneg sl h rc lt inp0 h0)
      constructor
      · intro r hr
        simp only [List.mem_cons] at hr
        rcases hr with hr | hr
        · subst hr
          exact iterate_retry_nonneg sl h rc lt inp0 h0
        · exact hnext.1 r hr
      · intro i r inp hr hinp hok
        cases i with
        | zero =>
          simp at hr hinp
          rw [← hr]
          rw [← hinp] at hok
          exact (iterate_okRead sl h rc lt inp0 hok).2.1
        | succ j =>
          simp only [List.getElem?_cons_succ] at hr hinp
          exact hnext.2 j r inp hr hinp hok

theorem runAux_rejected (sl : Sleeper) (h : Handler)
    (inputs : List LoopInput) :
    ∀ rc lt : Int, (∀ inp ∈ inputs, isOkRejected h inp = true) →
      (runAux sl h rc lt inputs).terminated = false ∧
      (runAux sl h rc lt inputs).recs.length = inputs.length ∧
      (handleCalls (allEvents (runAux sl h rc lt inputs).recs)).length =
        inputs.length ∧
      sleepCalls (allEvents (runAux sl h rc lt inputs).recs) = [] ∧
      (∀ r ∈ (runAux sl h rc lt inputs).recs, r.retryAfter = 0) := by
  induction inputs with
  | nil =>
    intro rc lt _
    simp [runAux_nil, allEvents_nil, handleCalls, sleepCalls]
  | cons inp0 rest ih =>
    intro rc lt hrej
    obtain ⟨m, hread, hiter⟩ :=
      iterate_rejected sl h rc lt inp0 (hrej inp0 (by simp))
    have ht : (iterate sl h rc lt inp0).terminated = false := by
      rw [hiter]
    rw [runAux_cons_cont sl h rc lt inp0 rest ht]
    have hrc0 : (iterate sl h rc lt inp0).retryCount = 0 := by rw [hiter]
    have hlt0 : (iterate sl h rc lt inp0).lastErrorTime = lt := by rw [hiter]
    have hev : (iterate sl h rc lt inp0).events =
        [.readCall .background,
         .logReceived m.topic m.partition m.offset m.time,
         .handleCall .background m.key m.value, .logHandleError] := by
      rw [hiter]
    rw [hrc0, hlt0]
    have hnext := ih 0 lt (fun i hi => hrej i (List.mem_cons_of_mem _ hi))
    refine ⟨hnext.1, by simpa using hnext.2.1, ?_, ?_, ?_⟩
    · simp only [allEvents_cons, handleCalls_append, List.length_append,
        hev, hnext.2.2.1]
      simp [handleCalls, Nat.add_comm]
    · simp only [allEvents_cons, sleepCalls_append, hev, hnext.2.2.2.1]
      simp [sleepCalls]
    · intro r hr
      simp only [List.mem_cons] at hr
      rcases hr with hr | hr
      · subst hr
        rfl
      · exact hnext.2.2.2.2 r hr

theorem runAux_tenErrs (sl : Sleeper) (h : Handler) (errs : List LoopInput) :
    ∀ rc lt : Int, (∀ inp ∈ errs, isNonCancelErr inp.read = true) →
      0 ≤ rc → rc + (errs.length : Int) = 10 → errs ≠ [] →
      ∃ pre last,
        (runAux sl h rc lt errs).recs = pre ++ [last] ∧
        pre.length + 1 = errs.length ∧
        sleepCalls (allEvents pre) = [] ∧
        sleepCalls last.events = [(sl, 10 * nsPerSecond)] ∧
        last.retryAfter = 0 ∧
        (runAux sl h rc lt errs).terminated = false := by
  induction errs with
  | nil => intro rc lt _ _ _ hne; exact absurd rfl hne
  | cons e rest ih =>
    intro rc lt herr h0 hsum _
    obtain ⟨hterm, hretry, hsleep, -⟩ :=
      iterate_nonCancelErr sl h rc lt e (herr e (by simp))
    cases rest with
    | nil =>
      have h10 : maxRetries ≤ rc + 1 := by
        simp only [List.length_cons, List.length_nil] at hsum
        simp only [maxRetries]
        omega
      rw [runAux_cons_cont sl h rc lt e [] hterm]
      refine ⟨[], ⟨(iterate sl h rc lt e).events,
        (iterate sl h rc lt e).retryCount,
        (iterate sl h rc lt e).lastErrorTime⟩, ?_, ?_, ?_, ?_, ?_, ?_⟩
      · simp [runAux_nil]
      · simp
      · simp [allEvents_nil, sleepCalls]
      · simpa [h10] using hsleep
      · simpa [h10] using hretry
      · simp [runAux_nil]
    | cons e2 rest2 =>
      have hno10 : ¬ maxRetries ≤ rc + 1 := by
        simp only [List.length_cons] at hsum
        simp only [maxRetries]
        push_cast at hsum
        omega
      rw [runAux_cons_cont sl h rc lt e (e2 :: rest2) hterm]
      rw [if_neg hno10] at hretry hsleep
      rw [hretry]
      obtain ⟨pre, last, hrecs, hlen, hpre, hlast, hra, hterm2⟩ :=
        ih (rc + 1) (iterate sl h rc lt e).lastErrorTime
          (fun i hi => herr i (List.mem_cons_of_mem _ hi))
          (by omega)
          (by simp only [List.length_cons] at hsum ⊢; push_cast at hsum ⊢; omega)
          (by simp)
      refine ⟨⟨(iterate sl h rc lt e).events,
          rc + 1, (iterate sl h rc lt e).lastErrorTime⟩ :: pre, last,
        ?_, ?_, ?_, hlast, hra, hterm2⟩
      · simp [hrecs]
      · simp only [List.length_cons] at hlen ⊢
        omega
      · simp only [allEvents_cons, sleepCalls_append, hpre, hsleep]
        simp

theorem runAux_firstHit (sl : Sleeper) (h : Handler) (inputs : List LoopInput) :
    ∀ (rc : Int) (j : Nat) (r : StepRec) (inp : LoopInput),
      (runAux sl h rc 0 inputs).recs[j]? = some r →
      inputs[j]? = some inp →
      (∀ (i : Nat) ri inpi, i < j →
        (runAux sl h rc 0 inputs).recs[i]? = some ri →
        inputs[i]? = some inpi →
        eofThresholdHit inpi ri.events = false) →
      eofThresholdHit inp r.events = true →
      30 * nsPerSecond < inp.now →
      idleLogCount r.events = 1 := by
  induction inputs with
  | nil =>
    intro rc j r inp hr
    simp [runAux_nil] at hr
  | cons inp0 rest ih =>
    intro rc j r inp hr hinp hfirst hhit hnow
    by_cases ht : (iterate sl h rc 0 inp0).terminated
    · rw [runAux_cons_term sl h rc 0 inp0 rest ht] at hr
      cases j with
      | zero =>
        simp at hr hinp
        rw [iterate_terminated_eq] at ht
        rw [← hinp] at hhit
        rw [← hr] at hhit
        rcases hread : inp0.read with e | m
        · cases e
          · simp [eofThresholdHit, hread] at hhit
          · simp [eofThresholdHit, hread] at hhit
          · simp [isCancelInput, hread, isCancellation] at ht
          · simp [eofThresholdHit, hread] at hhit
        · simp [eofThresholdHit, hread] at hhit
      | succ jj => simp at hr
    · have ht' : (iterate sl h rc 0 inp0).terminated = false := by
        simpa using ht
      rw [runAux_cons_cont sl h rc 0 inp0 rest ht'] at hr
      cases j with
      | zero =>
        simp at hr hinp
        rw [← hinp] at hhit hnow
        rw [← hr] at hhit ⊢
        exact iterate_hit_idle sl h rc 0 inp0 hhit (by simpa using hnow)
      | succ jj =>
        have hstepNoHit :
            eofThresholdHit inp0 (iterate sl h rc 0 inp0).events = false := by
          have := hfirst 0 ⟨(iterate sl h rc 0 inp0).events,
            (iterate sl h rc 0 inp0).retryCount,
            (iterate sl h rc 0 inp0).lastErrorTime⟩ inp0
            (Nat.succ_pos jj) ?_ (by simp)
          · exact this
          · rw [runAux_cons_cont sl h rc 0 inp0 rest ht']
            simp
        have hlt0 : (iterate sl h rc 0 inp0).lastErrorTime = 0 :=
          iterate_noHit_lastErr sl h rc 0 inp0 hstepNoHit
        rw [hlt0] at hr
        simp only [List.getElem?_cons_succ] at hr hinp
        refine ih (iterate sl h rc 0 inp0).retryCount jj r inp hr hinp
          ?_ hhit hnow
        intro i ri inpi hij hri hinpi
        refine hfirst (i + 1) ri inpi (Nat.succ_lt_succ hij) ?_
          (by simpa using hinpi)
        rw [runAux_cons_cont sl h rc 0 inp0 rest ht', hlt0]
        simpa using hri

/-! ### Concrete runs used by witnesses -/

/-- Ten consecutive non-cancellation errors: five end-of-stream then five
network-style errors. -/
def w1Errs : List LoopInput :=
  List.replicate 5 ⟨.error .eof, 0⟩ ++
    List.replicate 5 ⟨.error (.other "boom"), 0⟩

/-- A sample message with a non-nil key. -/
def wMsg : Message := ⟨some [107], [118], "t", 0, 1, 5⟩

/-- An end-of-stream error, another error, then a successful read. -/
def w2Inputs : List LoopInput :=
  [⟨.error .eof, 0⟩, ⟨.error (.other "boom"), 0⟩, ⟨.ok wMsg, 0⟩]

/-- A reader result carrying `context.Canceled`. -/
def wCancel : LoopInput := ⟨.error .canceled, 0⟩

/-- Five successful reads of the sample message. -/
def w5Inputs : List LoopInput := List.replicate 5 ⟨.ok wMsg, 0⟩

/-- Ten consecutive end-of-stream errors observed 40 s after the zero
time. -/
def w10Inputs : List LoopInput :=
  List.replicate 10 ⟨.error .eof, 40 * nsPerSecond⟩

/-- The record iteration 10 of `w10Inputs` leaves behind. -/
def w10Rec : StepRec :=
  ⟨[.readCall .background, .logDebugIdle 10,
    .sleeperSleep .test (10 * nsPerSecond)], 0, 40 * nsPerSecond⟩

/-- The record a successful read of `wMsg` under `handlerOk` leaves
behind. -/
def w4Rec : StepRec :=
  ⟨[.readCall .background, .logReceived "t" 0 1 5,
    .handleCall .background (some [107]) [118]], 0, 0⟩

/-! ### Claims -/

/-- C1: when the reader returns exactly 10 consecutive non-cancellation
errors (any mix of end-of-stream and other errors), the loop invokes the
sleeper exactly once across those 10 iterations — in the 10th iteration,
after the 10th error and hence before the 11th read attempt — with a
duration of 10 seconds, and the retry counter is 0 at the end of that
iteration. -/
theorem consumer_ten_errors_single_sleep (sl : Sleeper) (h : Handler)
    (errs rest : List LoopInput) (hlen : errs.length = 10)
    (herr : ∀ inp ∈ errs, isNonCancelErr inp.read = true) :
    ∃ pre last,
      (runConsumerLoopWithSleeper (errs ++ rest) h sl).recs.take 10 =
        pre ++ [last] ∧
      pre.length = 9 ∧
      sleepCalls (allEvents pre) = [] ∧
      sleepCalls last.events = [(sl, 10 * nsPerSecond)] ∧
      last.retryAfter = 0 := by
  obtain ⟨pre, last, hrecs, hplen, hpre, hlast, hra, hterm⟩ :=
    runAux_tenErrs sl h errs 0 0 herr le_rfl
      (by rw [hlen]; norm_num)
      (by intro hnil; rw [hnil] at hlen; simp at hlen)
  refine ⟨pre, last, ?_, by omega, hpre, hlast, hra⟩
  show (runAux sl h 0 0 (errs ++ rest)).recs.take 10 = pre ++ [last]
  rw [runAux_append sl h errs rest 0 0, if_neg (by simp [hterm]), hrecs]
  have hlen10 : (pre ++ [last]).length = 10 := by
    simp only [List.length_append, List.length_singleton]
    omega
  rw [List.append_assoc] at *
  rw [← List.append_assoc]
  rw [List.take_append_of_le_length (by rw [hlen10])]
  rw [List.take_of_length_le (by rw [hlen10])]

/-- Witness for C1 on a concrete mix of 5 end-of-stream and 5 other
errors. -/
theorem consumer_ten_errors_single_sleep_witness :
    ∃ pre last,
      (runConsumerLoopWithSleeper (w1Errs ++ []) handlerOk .test).recs.take 10 =
        pre ++ [last] ∧
      pre.length = 9 ∧
      sleepCalls (allEvents pre) = [] ∧
      sleepCalls last.events = [(.test, 10 * nsPerSecond)] ∧
      last.retryAfter = 0 :=
  consumer_ten_errors_single_sleep .test handlerOk w1Errs []
    (by decide) (by decide)

/-- C2: for every input sequence containing no cancellation-class error the
loop never terminates: every iteration continues to another read attempt,
so all inputs are consumed and `terminated` stays false. -/
theorem consumer_no_cancel_never_terminates (sl : Sleeper) (h : Handler)
    (inputs : List LoopInput)
    (hnc : ∀ inp ∈ inputs, isCancelInput inp = false) :
    (runConsumerLoopWithSleeper inputs h sl).terminated = false ∧
    (runConsumerLoopWithSleeper inputs h sl).recs.length = inputs.length :=
  runAux_noCancel sl h inputs 0 0 hnc

/-- Witness for C2: end-of-stream, another error and a handler-rejected
message do not terminate the loop. -/
theorem consumer_no_cancel_never_terminates_witness :
    (runConsumerLoopWithSleeper w2Inputs handlerFail .test).terminated = false ∧
    (runConsumerLoopWithSleeper w2Inputs handlerFail .test).recs.length =
      w2Inputs.length :=
  consumer_no_cancel_never_terminates .test handlerFail w2Inputs (by decide)

/-- C3: a cancellation-class error, at whatever position it occurs,
terminates the loop within that read attempt — the terminating iteration
performs only the read and the shutdown log, invoking neither the handler
nor the sleeper, and no further input is consumed — and the goroutine
spawned by `NewConsumer` then closes the reader exactly once. -/
theorem consumer_cancel_stops_and_closes_once (h : Handler)
    (pre rest : List LoopInput) (cinp : LoopInput)
    (hpre : ∀ inp ∈ pre, isCancelInput inp = false)
    (hc : isCancelInput cinp = true) :
    (consumerGoroutine (pre ++ cinp :: rest) h).run.terminated = true ∧
    (consumerGoroutine (pre ++ cinp :: rest) h).run.recs.length =
      pre.length + 1 ∧
    (∃ last,
      (consumerGoroutine (pre ++ cinp :: rest) h).run.recs.getLast? =
        some last ∧
      last.events = [.readCall .background, .logShutdown]) ∧
    (consumerGoroutine (pre ++ cinp :: rest) h).closeCount = 1 := by
  obtain ⟨hterm, hlen⟩ := runAux_noCancel Sleeper.default h pre 0 0 hpre
  obtain ⟨e, hread, hcan⟩ : ∃ e, cinp.read = .error e ∧ isCancellation e = true := by
    rcases hread : cinp.read with e | m
    · exact ⟨e, rfl, by simpa [isCancelInput, hread] using hc⟩
    · simp [isCancelInput, hread] at hc
  set fr := (runAux Sleeper.default h 0 0 pre).finalRetry with hfr
  set fl := (runAux Sleeper.default h 0 0 pre).finalLastErr with hfl
  have hiter := iterate_cancel_eq Sleeper.default h fr fl cinp e hread hcan
  have htail :
      runAux Sleeper.default h fr fl (cinp :: rest) =
        ⟨[⟨[.readCall .background, .logShutdown], fr, fl⟩], true, fr, fl⟩ := by
    rw [runAux_cons_term Sleeper.default h fr fl cinp rest (by rw [hiter]),
      hiter]
  have hrun :
      runConsumerLoop (pre ++ cinp :: rest) h =
        ⟨(runAux Sleeper.default h 0 0 pre).recs ++
          [⟨[.readCall .background, .logShutdown], fr, fl⟩], true, fr, fl⟩ := by
    show runAux Sleeper.default h 0 0 (pre ++ cinp :: rest) = _
    rw [runAux_append Sleeper.default h pre (cinp :: rest) 0 0,
      if_neg (by simp [hterm]), ← hfr, ← hfl, htail]
  refine ⟨?_, ?_, ?_, ?_⟩
  · show (runConsumerLoop (pre ++ cinp :: rest) h).terminated = true
    rw [hrun]
  · show (runConsumerLoop (pre ++ cinp :: rest) h).recs.length = pre.length + 1
    rw [hrun]
    simp [hlen]
  · refine ⟨⟨[.readCall .background, .logShutdown], fr, fl⟩, ?_, rfl⟩
    show (runConsumerLoop (pre ++ cinp :: rest) h).recs.getLast? = _
    rw [hrun]
    simp
  · show (if (runConsumerLoop (pre ++ cinp :: rest) h).terminated then 1 else 0) = 1
    rw [hrun]
    simp

/-- Witness for C3: one successful read, then cancellation. -/
theorem consumer_cancel_stops_and_closes_once_witness :
    (consumerGoroutine ([⟨.ok wMsg, 0⟩] ++ wCancel :: []) handlerOk).run.terminated = true ∧
    (consumerGoroutine ([⟨.ok wMsg, 0⟩] ++ wCancel :: []) handlerOk).run.recs.length =
      [(⟨.ok wMsg, 0⟩ : LoopInput)].length + 1 ∧
    (∃ last,
      (consumerGoroutine ([⟨.ok wMsg, 0⟩] ++ wCancel :: []) handlerOk).run.recs.getLast? =
        some last ∧
      last.events = [.readCall .background, .logShutdown]) ∧
    (consumerGoroutine ([⟨.ok wMsg, 0⟩] ++ wCancel :: []) handlerOk).closeCount = 1 :=
  consumer_cancel_stops_and_closes_once handlerOk [⟨.ok wMsg, 0⟩] [] wCancel
    (by decide) (by decide)

/-- C4: in every reachable state the retry counter is ≥ 0, and at the end
of every iteration whose read succeeded the counter equals 0, regardless of
the handler's outcome and of the preceding error history. -/
theorem consumer_retry_counter_invariant (sl : Sleeper) (h : Handler)
    (inputs : List LoopInput) :
    (∀ r ∈ (runConsumerLoopWithSleeper inputs h sl).recs, 0 ≤ r.retryAfter) ∧
    (∀ (i : Nat) (r : StepRec) (inp : LoopInput),
      (runConsumerLoopWithSleeper inputs h sl).recs[i]? = some r →
      inputs[i]? = some inp → isOkRead inp.read = true →
      r.retryAfter = 0) :=
  runAux_retryFacts sl h inputs 0 0 le_rfl

/-- Witness for C4 on a single successful read under `handlerOk`. -/
theorem consumer_retry_counter_invariant_witness :
    0 ≤ w4Rec.retryAfter ∧ w4Rec.retryAfter = 0 :=
  ⟨(consumer_retry_counter_invariant .test handlerOk [⟨.ok wMsg, 0⟩]).1
      w4Rec (by decide),
   (consumer_retry_counter_invariant .test handlerOk [⟨.ok wMsg, 0⟩]).2
      0 w4Rec ⟨.ok wMsg, 0⟩ (by decide) (by decide) (by decide)⟩

/-- C5: when every read succeeds and the handler rejects every message, the
loop performs all the reads, invokes the handler exactly once per message,
never sleeps, never terminates, and the retry counter is 0 at the end of
every iteration. -/
theorem consumer_handler_errors_continue (sl : Sleeper) (h : Handler)
    (inputs : List LoopInput)
    (hrej : ∀ inp ∈ inputs, isOkRejected h inp = true) :
    (runConsumerLoopWithSleeper inputs h sl).terminated = false ∧
    (runConsumerLoopWithSleeper inputs h sl).recs.length = inputs.length ∧
    (handleCalls
      (allEvents (runConsumerLoopWithSleeper inputs h sl).recs)).length =
      inputs.length ∧
    sleepCalls (allEvents (runConsumerLoopWithSleeper inputs h sl).recs) = [] ∧
    (∀ r ∈ (runConsumerLoopWithSleeper inputs h sl).recs, r.retryAfter = 0) :=
  runAux_rejected sl h inputs 0 0 hrej

/-- Witness for C5: five messages all rejected by the handler. -/
theorem consumer_handler_errors_continue_witness :
    (runConsumerLoopWithSleeper w5Inputs handlerFail .test).terminated = false ∧
    (runConsumerLoopWithSleeper w5Inputs handlerFail .test).recs.length =
      w5Inputs.length ∧
    (handleCalls
      (allEvents (runConsumerLoopWithSleeper w5Inputs handlerFail .test).recs)).length =
      w5Inputs.length ∧
    sleepCalls
      (allEvents (runConsumerLoopWithSleeper w5Inputs handlerFail .test).recs) = [] ∧
    (∀ r ∈ (runConsumerLoopWithSleeper w5Inputs handlerFail .test).recs,
      r.retryAfter = 0) :=
  consumer_handler_errors_continue .test handlerFail w5Inputs (by decide)

/-- C6 (counterexample): the idle-partition diagnostic at a threshold hit is
suppressed when the previous diagnostic was emitted exactly 30 seconds
earlier, although it was not emitted "less than 30 seconds ago".  Run 20
end-of-stream iterations: the 10th emits the diagnostic at t = 40 s; the
20th reaches the threshold again at t = 70 s — a gap of exactly 30 s, not
less than 30 s — and the code still suppresses the diagnostic. -/
theorem idle_diag_suppressed_at_exactly_thirty_seconds :
    ((runConsumerLoopWithSleeper
        (List.replicate 10 ⟨.error .eof, 40 * nsPerSecond⟩ ++
          List.replicate 10 ⟨.error .eof, 70 * nsPerSecond⟩)
        handlerOk .test).recs[9]?.map
      fun r => (idleLogCount r.events, r.lastErrAfter)) =
        some (1, 40 * nsPerSecond) ∧
    ((runConsumerLoopWithSleeper
        (List.replicate 10 ⟨.error .eof, 40 * nsPerSecond⟩ ++
          List.replicate 10 ⟨.error .eof, 70 * nsPerSecond⟩)
        handlerOk .test).recs[19]?.map
      fun r => (idleLogCount r.events, sleepCalls r.events)) =
        some (0, [(.test, 10 * nsPerSecond)]) ∧
    ¬(70 * nsPerSecond - 40 * nsPerSecond < 30 * nsPerSecond) := by
  refine ⟨by decide, by decide, by decide⟩

/-- C6 (amended): in the end-of-stream branch, when the retry counter
reaches the threshold of 10 the loop emits the rate-limited idle-partition
diagnostic — suppressed if and only if the last diagnostic was emitted 30
seconds or less ago (strictly more than 30 s must have elapsed for it to be
emitted), the last-error timestamp being updated exactly when the
diagnostic is emitted — then invokes the sleeper for a fixed 10-second
backoff and resets the counter to 0; below the threshold it performs only
the read, logs nothing extra, leaves the timestamp unchanged and
immediately re-polls. -/
theorem eof_threshold_rate_limited_backoff (sl : Sleeper) (h : Handler)
    (rc lt : Int) (inp : LoopInput) (he : inp.read = .error .eof) :
    (iterate sl h rc lt inp).terminated = false ∧
    (maxRetries ≤ rc + 1 →
      idleLogCount (iterate sl h rc lt inp).events =
        (if 30 * nsPerSecond < inp.now - lt then 1 else 0) ∧
      (iterate sl h rc lt inp).lastErrorTime =
        (if 30 * nsPerSecond < inp.now - lt then inp.now else lt) ∧
      sleepCalls (iterate sl h rc lt inp).events = [(sl, 10 * nsPerSecond)] ∧
      (iterate sl h rc lt inp).retryCount = 0) ∧
    (rc + 1 < maxRetries →
      (iterate sl h rc lt inp).events = [.readCall .background] ∧
      (iterate sl h rc lt inp).retryCount = rc + 1 ∧
      (iterate sl h rc lt inp).lastErrorTime = lt) := by
  rw [iterate_eof_eq sl h rc lt inp he]
  by_cases h10 : maxRetries ≤ rc + 1
  · rw [if_pos h10]
    by_cases h30 : 30 * nsPerSecond < inp.now - lt
    · rw [if_pos h30]
      exact ⟨rfl, fun _ => ⟨by simp [idleLogCount, h30],
        by simp [h30], by simp [sleepCalls], rfl⟩,
        fun hlt => absurd h10 (by omega)⟩
    · rw [if_neg h30]
      exact ⟨rfl, fun _ => ⟨by simp [idleLogCount, h30],
        by simp [h30], by simp [sleepCalls], rfl⟩,
        fun hlt => absurd h10 (by omega)⟩
  · rw [if_neg h10]
    exact ⟨rfl, fun hge => absurd hge h10, fun _ => ⟨rfl, rfl, rfl⟩⟩

/-- Witness for the amended C6 at the threshold, 40 s after the zero
time. -/
theorem eof_threshold_rate_limited_backoff_witness :
    maxRetries ≤ 9 + 1 ∧
    (idleLogCount (iterate Sleeper.test handlerOk 9 0
        ⟨.error .eof, 40 * nsPerSecond⟩).events =
      (if 30 * nsPerSecond <
          (⟨.error .eof, 40 * nsPerSecond⟩ : LoopInput).now - 0 then 1 else 0) ∧
    (iterate Sleeper.test handlerOk 9 0
        ⟨.error .eof, 40 * nsPerSecond⟩).lastErrorTime =
      (if 30 * nsPerSecond <
          (⟨.error .eof, 40 * nsPerSecond⟩ : LoopInput).now - 0 then
        (⟨.error .eof, 40 * nsPerSecond⟩ : LoopInput).now else 0) ∧
    sleepCalls (iterate Sleeper.test handlerOk 9 0
        ⟨.error .eof, 40 * nsPerSecond⟩).events =
      [(Sleeper.test, 10 * nsPerSecond)] ∧
    (iterate Sleeper.test handlerOk 9 0
        ⟨.error .eof, 40 * nsPerSecond⟩).retryCount = 0) :=
  ⟨by decide,
   (eof_threshold_rate_limited_backoff Sleeper.test handlerOk 9 0
      ⟨.error .eof, 40 * nsPerSecond⟩ rfl).2.1 (by decide)⟩

/-- C7: the loop issues every read with the one shared background context
created before the loop — one identical context per executed iteration —
and termination occurs only when some reader result is a
cancellation-class error, i.e. cancellation is observed solely through the
reader's returned error. -/
theorem consumer_shared_background_context (sl : Sleeper) (h : Handler)
    (inputs : List LoopInput) :
    readCalls (allEvents (runConsumerLoopWithSleeper inputs h sl).recs) =
      List.replicate (runConsumerLoopWithSleeper inputs h sl).recs.length
        Ctx.background ∧
    ((runConsumerLoopWithSleeper inputs h sl).terminated = true →
      ∃ inp ∈ inputs, isCancelInput inp = true) :=
  ⟨runAux_readCalls sl h inputs 0 0,
   fun ht => runAux_term_cancel sl h inputs 0 0 ht⟩

/-- Witness for C7 on a run that is cancelled on its first read. -/
theorem consumer_shared_background_context_witness :
    readCalls (allEvents (runConsumerLoopWithSleeper [wCancel] handlerOk .test).recs) =
      List.replicate (runConsumerLoopWithSleeper [wCancel] handlerOk .test).recs.length
        Ctx.background ∧
    (∃ inp ∈ [wCancel], isCancelInput inp = true) :=
  ⟨(consumer_shared_background_context .test handlerOk [wCancel]).1,
   (consumer_shared_background_context .test handlerOk [wCancel]).2 (by decide)⟩

/-- C8 (counterexample): `ConsumeMessage` does not forward a message's key.
For a message with key `some [107]` and value `[118]`, a handler that
rejects exactly the messages carrying a non-nil key accepts what
`ConsumeMessage` sends it, while a direct call with the message's key is
rejected — so the result differs from forwarding both key and value. -/
theorem consumeMessage_ignores_key_counterexample :
    consumeMessage .background keyProbe [118] = none ∧
    keyProbe .background (some [107]) [118] = some .eof ∧
    consumeMessage .background keyProbe [118] ≠
      keyProbe .background (some [107]) [118] :=
  ⟨rfl, rfl, by decide⟩

/-- C8 (amended): the convenience helper accepts a single message value,
forwards a nil key together with that value to the given handler in one
direct call — no retry, no error classification — and returns exactly the
handler's result. -/
theorem consumeMessage_forwards_nil_key (ctx : Ctx) (h : Handler)
    (v : Bytes) :
    consumeMessage ctx h v = h ctx none v := rfl

/-- C9: `RunConsumerLoop(reader, handler)` behaves identically to
`RunConsumerLoopWithSleeper(reader, handler, DefaultSleeper)` on every
reader, handler and input sequence: its whole observable outcome is equal. -/
theorem runConsumerLoop_refines_withSleeper (reader : List LoopInput)
    (h : Handler) :
    runConsumerLoop reader h =
      runConsumerLoopWithSleeper reader h .default := rfl

/-- C10: the first time the end-of-stream retry threshold is reached after
loop start — no earlier iteration was an EOF-threshold hit — the
idle-partition diagnostic is emitted, never suppressed, because the
last-error timestamp starts at the zero time and any clock reading more
than 30 seconds past the zero time beats the rate limit. -/
theorem first_eof_threshold_always_logs (sl : Sleeper) (h : Handler)
    (inputs : List LoopInput) (j : Nat) (r : StepRec) (inp : LoopInput)
    (hr : (runConsumerLoopWithSleeper inputs h sl).recs[j]? = some r)
    (hinp : inputs[j]? = some inp)
    (hfirst : ∀ i : Nat, i < j →
      hitAt (runConsumerLoopWithSleeper inputs h sl) inputs i = false)
    (hhit : eofThresholdHit inp r.events = true)
    (hnow : 30 * nsPerSecond < inp.now) :
    idleLogCount r.events = 1 := by
  refine runAux_firstHit sl h inputs 0 j r inp hr hinp ?_ hhit hnow
  intro i ri inpi hij hri hinpi
  have hri' : (runConsumerLoopWithSleeper inputs h sl).recs[i]? = some ri := hri
  have hi := hfirst i hij
  simpa [hitAt, hri', hinpi] using hi

/-- Witness for C10: ten end-of-stream errors at t = 40 s; the threshold
hit in iteration 10 emits the diagnostic. -/
theorem first_eof_threshold_always_logs_witness :
    idleLogCount w10Rec.events = 1 :=
  first_eof_threshold_always_logs .test handlerOk w10Inputs 9 w10Rec
    ⟨.error .eof, 40 * nsPerSecond⟩
    (by decide) (by decide) (by decide) (by decide) (by decide)

end KafkaLoop
